import Mathlib

/-!
Verification of the Advanced Photo Region Detector
(`photovault/utils/photo_detection.py`, class `AdvancedPhotoDetector`).

Shallow embedding conventions:
* Python floats are modelled by `ℚ` (exact rational arithmetic; the float
  literals of the source such as `0.85` are read as the rationals they denote).
* Pixel coordinates and sizes are `Int`, as in the source (`int(x)` casts).
* OpenCV primitives (contour extraction, corner approximation, edge maps,
  pixel statistics) are not re-implemented: their *outputs* are universally
  quantified inputs of the embedded pipeline (`RawContour`, `RawData`,
  `ExtractCvData` below).  Everything the Python code computes *from* those
  outputs (filters, confidence arithmetic, NMS, clamping, flags) is embedded
  exactly.
-/

-- Batteries marks the `Rat` field operations irreducible purely as an
-- elaboration-performance measure; the concrete runs of the pipeline below
-- are checked with `decide`, which needs these operations to evaluate.
set_option allowUnsafeReducibility true
attribute [local semireducible] Rat.mul Rat.add Rat.sub Rat.inv Rat.ofScientific

/-- Python `int()` applied to a rational: truncation toward zero. -/
def py_int (q : ℚ) : Int := if 0 ≤ q then ⌊q⌋ else ⌈q⌉

/-- `int(sqrt q)` for `0 ≤ q`: since `⌊√q⌋ = Nat.sqrt ⌊q⌋` for nonnegative `q`,
this models `int(np.linalg.norm v)` where `q` is the squared norm. -/
def py_isqrt (q : ℚ) : Int := (Nat.sqrt ⌊q⌋.toNat : Int)

/-- The raster image: only its pixel dimensions are needed by the embedded
logic; pixel contents stay behind the abstract CV inputs. -/
structure Image where
  width : Int
  height : Int
deriving DecidableEq

/-- One contour as produced by the opaque OpenCV layer, together with every
quantity the Python code derives from pixel data:
`(x, y, width, height) = cv2.boundingRect(contour)`,
`contour_area = cv2.contourArea(contour)`,
`corners = _get_photo_corners_refined(contour, 1.0)` (scale-space corners),
`corner_angles = _calculate_corner_angles(corners)` (arccos based),
`top/bottom/left/right = (edge density of the border strip, its continuity)`
as read off the edge map by `_validate_perimeter_edges` / `_check_edge_continuity`,
`texture_variance = np.var` of the grayscale region (`_analyze_texture`),
`edge_density` = the Canny edge density used by `_detect_polaroids`. -/
structure RawContour where
  x : Int
  y : Int
  width : Int
  height : Int
  contour_area : ℚ
  corners : List (ℚ × ℚ)
  corner_angles : List ℚ
  top : ℚ × Bool
  bottom : ℚ × Bool
  left : ℚ × Bool
  right : ℚ × Bool
  texture_variance : ℚ
  edge_density : ℚ
  contour_points : List (Int × Int)
deriving DecidableEq

/-- The candidate record built by the detection strategies
(the Python dict with keys `x, y, width, height, area, confidence,
aspect_ratio, contour, corners, detection_method`). -/
structure Detection where
  x : Int
  y : Int
  width : Int
  height : Int
  area : Int
  confidence : ℚ
  aspect_ratio : ℚ
  contour : List (Int × Int)
  corners : List (ℚ × ℚ)
  detection_method : String
deriving DecidableEq

/-- Configuration attributes set in `AdvancedPhotoDetector.__init__`. -/
structure AdvancedPhotoDetector where
  min_photo_area : Int
  max_photo_area_ratio : ℚ
  min_aspect_ratio : ℚ
  max_aspect_ratio : ℚ
  enable_perspective_correction : Bool
  enable_edge_refinement : Bool
  fast_mode : Bool
  min_dimension : Int
  min_confidence : ℚ
  high_confidence : ℚ
deriving DecidableEq

/-- `AdvancedPhotoDetector(fast_mode)`: the constructor fixes every attribute
except `fast_mode` (values copied from `__init__`). -/
def AdvancedPhotoDetector.init (fm : Bool) : AdvancedPhotoDetector :=
  { min_photo_area := 150000
    max_photo_area_ratio := (17/20 : ℚ)
    min_aspect_ratio := (3/10 : ℚ)
    max_aspect_ratio := 4
    enable_perspective_correction := true
    enable_edge_refinement := true
    fast_mode := fm
    min_dimension := 300
    min_confidence := (3/5 : ℚ)
    high_confidence := (17/20 : ℚ) }

/-- `self.scales`: `[1.0]` in fast mode, else `[1.0, 0.85]`. -/
def AdvancedPhotoDetector.scales (d : AdvancedPhotoDetector) : List ℚ :=
  if d.fast_mode then [1] else [1, (17/20 : ℚ)]

/-- The module-level singleton `photo_detector = AdvancedPhotoDetector()`. -/
def photo_detector : AdvancedPhotoDetector := AdvancedPhotoDetector.init true

/-- `_is_valid_photo_region(x, y, w, h, original_area)`. -/
def is_valid_photo_region (d : AdvancedPhotoDetector)
    (x y w h original_area : Int) : Bool :=
  let area := w * h
  let aspect : ℚ := (w : ℚ) / (h : ℚ)
  if area < d.min_photo_area then false
  else if (area : ℚ) > (original_area : ℚ) * d.max_photo_area_ratio then false
  else if aspect < d.min_aspect_ratio ∨ aspect > d.max_aspect_ratio then false
  else if x < 5 ∨ y < 5 then false
  else if w < d.min_dimension ∨ h < d.min_dimension then false
  else if 2 * (w + h) < 1200 then false
  else true

/-- The `common_ratios` list shared by both confidence calculators, and the
minimum of `abs(aspect_ratio - ratio)` over it (`min([...])` in Python). -/
def min_ratio_diff (a : ℚ) : ℚ :=
  min |a - 1| <| min |a - 4/3| <| min |a - 3/2| <| min |a - 16/9| <|
    min |a - 5/4| <| min |a - (3/4 : ℚ)| |a - (67/100 : ℚ)|

/-- `sum(1 for angle in corner_angles if lo < angle < hi)`. -/
def count_angles_between (lo hi : ℚ) (angles : List ℚ) : Nat :=
  (angles.filter (fun a => decide (lo < a ∧ a < hi))).length

/-- `_validate_perimeter_edges(edges, x, y, w, h)`: the strip densities and
continuity verdicts are pixel data carried by the `RawContour`; the bounds
checks and the side counting are the source's. -/
def validate_perimeter_edges (img : Image) (rc : RawContour) : ℚ :=
  if rc.x < 0 ∨ rc.y < 0 then 0
  else if rc.x + rc.width > img.width ∨ rc.y + rc.height > img.height then 0
  else
    let strong : ℚ × Bool → Bool := fun s => decide ((3/25 : ℚ) ≤ s.1) && s.2
    let sides : Nat :=
      ([strong rc.top, strong rc.bottom, strong rc.left, strong rc.right].filter id).length
    if sides < 2 then 0
    else if sides = 2 then (13/20 : ℚ)
    else if sides = 3 then (17/20 : ℚ)
    else 1

/-- `contour_area / bbox_area if bbox_area > 0 else 0`, shared by both
confidence calculators and `_detect_polaroids`. -/
def area_ratio_of (contour_area : ℚ) (bbox_area : Int) : ℚ :=
  if bbox_area > 0 then contour_area / (bbox_area : ℚ) else 0

/-- The soft rectangularity scoring of `_calculate_fast_confidence`
(0 below 0.60, proportional on [0.60, 0.75), `0.20 + (r - 0.75) * 0.20`
above). -/
def rectangularity_score (area_ratio : ℚ) : ℚ :=
  if area_ratio < (3/5 : ℚ) then 0
  else if area_ratio < (3/4 : ℚ) then (1/10 : ℚ) + (area_ratio - (3/5 : ℚ)) * ((1/10 : ℚ) / (3/20 : ℚ))
  else (1/5 : ℚ) + (area_ratio - (3/4 : ℚ)) * (1/5 : ℚ)

/-- `max(0, 1 - min_diff * 2)`, the unweighted aspect-ratio match. -/
def aspect_match (a : ℚ) : ℚ := max 0 (1 - min_ratio_diff a * 2)

/-- The unweighted corner-angle quality: fraction of the 4 corner angles in
(70, 110), or 0 when the refined approximation does not yield 4 corners. -/
def corner_angle_score (corners : List (ℚ × ℚ)) (angles : List ℚ) : ℚ :=
  if corners.length = 4 then (count_angles_between 70 110 angles : ℚ) / 4 else 0

/-- `_calculate_fast_confidence(contour, x, y, w, h, image, edges)`.
`has_edges` mirrors the `edges is not None` test (the fast path always
passes the dilated edge map).  Rectangularity is weighted as written
(max 0.25 via its formula), aspect 0.2, corners 0.15, perimeter 0.40,
capped by `min(1.0, ...)`; a zero perimeter score short-circuits to 0. -/
def calculate_fast_confidence (img : Image) (rc : RawContour)
    (has_edges : Bool) : ℚ :=
  let base : ℚ :=
    rectangularity_score (area_ratio_of rc.contour_area (rc.width * rc.height))
      + aspect_match ((rc.width : ℚ) / (rc.height : ℚ)) * (1/5 : ℚ)
      + corner_angle_score rc.corners rc.corner_angles * (3/20 : ℚ)
  if has_edges then
    let perimeter_score := validate_perimeter_edges img rc
    if perimeter_score = 0 then 0
    else min 1 (base + perimeter_score * (2/5 : ℚ))
  else min 1 (base + (3/20 : ℚ))

/-- `_analyze_texture(image, x, y, w, h)`; the pixel variance is abstract
input, the region-emptiness logic is the source's. -/
def analyze_texture (img : Image) (variance : ℚ) (x y w h : Int) : ℚ :=
  let y1 := max 0 y
  let y2 := min img.height (y + h)
  let x1 := max 0 x
  let x2 := min img.width (x + w)
  if y2 ≤ y1 ∨ x2 ≤ x1 then 0
  else if 500 < variance ∧ variance < 5000 then 1
  else if (200 < variance ∧ variance < 500) ∨ (5000 < variance ∧ variance < 8000) then (1/2 : ℚ)
  else (1/5 : ℚ)

/-- Factor 4 of `_calculate_advanced_confidence`: size appropriateness. -/
def size_score (bbox_area : Int) : ℚ :=
  if 5000 < bbox_area ∧ bbox_area < 800000 then (3/20 : ℚ)
  else if (2000 < bbox_area ∧ bbox_area < 5000) ∨
          (800000 < bbox_area ∧ bbox_area < 1500000) then (2/25 : ℚ)
  else 0

/-- `_calculate_advanced_confidence(contour, x, y, w, h, image, hierarchy, i)`
(the `hierarchy`/`contour_idx` parameters are unused in the source body and
therefore omitted).  `x, y, w, h` are passed separately because
`_multi_scale_detection` rescales them before the call. -/
def calculate_advanced_confidence (img : Image) (rc : RawContour)
    (x y w h : Int) : ℚ :=
  let bbox_area : Int := w * h
  min 1 (area_ratio_of rc.contour_area bbox_area * (3/10 : ℚ)
    + aspect_match ((w : ℚ) / (h : ℚ)) * (1/4 : ℚ)
    + corner_angle_score rc.corners rc.corner_angles * (1/5 : ℚ)
    + size_score bbox_area
    + analyze_texture img rc.texture_variance x y w h * (1/10 : ℚ))

/-- Stable descending insertion by a rational key: the element is placed
before the first kept element whose key is `≤` its own, which is exactly the
behaviour of Python's stable `sorted(..., key=..., reverse=True)`. -/
def insertDescBy {α : Type} (k : α → ℚ) (p : α) : List α → List α
  | [] => [p]
  | q :: rest => if k q ≤ k p then p :: q :: rest else q :: insertDescBy k p rest

/-- Stable descending sort by a rational key (models Python's
`sorted(..., key=..., reverse=True)` and `list.sort(..., reverse=True)`). -/
def sortDescBy {α : Type} (k : α → ℚ) : List α → List α
  | [] => []
  | p :: rest => insertDescBy k p (sortDescBy k rest)

/-- Build the candidate dict appended by `_fast_detection` /
`_multi_scale_detection` / `_detect_faded_photos` / `_watershed_detection`. -/
def mk_detection (x y w h : Int) (confidence : ℚ)
    (contour : List (Int × Int)) (corners : List (ℚ × ℚ))
    (method : String) : Detection :=
  { x := x, y := y, width := w, height := h, area := w * h
    confidence := confidence, aspect_ratio := (w : ℚ) / (h : ℚ)
    contour := contour, corners := corners, detection_method := method }

/-- `_fast_detection(image, original_area)`: sort the contours by
`cv2.contourArea` (descending), keep those with contour area above
`0.5 * min_photo_area`, truncate to 20, then validate geometry, require a
4-corner approximation with at least 3 corner angles in (60, 120), score
with `_calculate_fast_confidence`, and keep candidates above
`min_confidence`. -/
def fast_detection (d : AdvancedPhotoDetector) (img : Image)
    (raw : List RawContour) : List Detection :=
  let min_area : ℚ := (d.min_photo_area : ℚ) * (1/2 : ℚ)
  let filtered :=
    (((sortDescBy (fun rc => rc.contour_area) raw).filter
        (fun rc => decide (rc.contour_area > min_area))).take 20)
  filtered.filterMap (fun rc =>
    if is_valid_photo_region d rc.x rc.y rc.width rc.height
        (img.width * img.height) = true then
      if rc.corners.length = 4 then
        if count_angles_between 60 120 rc.corner_angles < 3 then none
        else
          let confidence := calculate_fast_confidence img rc true
          if confidence > d.min_confidence then
            some (mk_detection rc.x rc.y rc.width rc.height confidence
              rc.contour_points rc.corners "fast")
          else none
      else none
    else none)

/-- `_multi_scale_detection(image, original_area)`: for each scale in
`self.scales`, take the contours found at that scale
(`_find_contours_hierarchical`: sorted by area descending, contour area
`> 0.5 * min_photo_area`, first 25), rescale coordinates back to the
original resolution with `int(x / scale)`, validate, score with
`_calculate_advanced_confidence` and threshold.  The appended corners are
`_get_photo_corners_refined(contour, scale)`, i.e. the scale-space corners
divided by the scale; the detection-method tag elides the numeric scale
suffix of the source's f-string. -/
def multi_scale_detection (d : AdvancedPhotoDetector) (img : Image)
    (rawAt : ℚ → List RawContour) : List Detection :=
  d.scales.flatMap (fun scale =>
    let contours :=
      (((sortDescBy (fun rc => rc.contour_area) (rawAt scale)).filter
          (fun rc => decide (rc.contour_area > (d.min_photo_area : ℚ) * (1/2 : ℚ)))).take 25)
    contours.filterMap (fun rc =>
      let x := if scale ≠ 1 then py_int ((rc.x : ℚ) / scale) else rc.x
      let y := if scale ≠ 1 then py_int ((rc.y : ℚ) / scale) else rc.y
      let w := if scale ≠ 1 then py_int ((rc.width : ℚ) / scale) else rc.width
      let h := if scale ≠ 1 then py_int ((rc.height : ℚ) / scale) else rc.height
      if is_valid_photo_region d x y w h (img.width * img.height) = true then
        let confidence := calculate_advanced_confidence img rc x y w h
        if confidence > d.min_confidence then
          some (mk_detection x y w h confidence rc.contour_points
            (rc.corners.map (fun p =>
              if scale ≠ 1 then (p.1 / scale, p.2 / scale) else p))
            "multi_scale")
        else none
      else none))

/-- `_detect_polaroids(image, original_area)`: validate geometry, require a
square-ish aspect ratio in [0.8, 1.2], rectangularity at least 0.88 and
Canny edge density at least 0.025, then append with fixed confidence 0.65. -/
def detect_polaroids (d : AdvancedPhotoDetector) (img : Image)
    (raw : List RawContour) : List Detection :=
  raw.filterMap (fun rc =>
    if is_valid_photo_region d rc.x rc.y rc.width rc.height
        (img.width * img.height) = true then
      let aspect : ℚ := (rc.width : ℚ) / (rc.height : ℚ)
      if (4/5 : ℚ) ≤ aspect ∧ aspect ≤ (6/5 : ℚ) then
        let rectangularity : ℚ :=
          area_ratio_of rc.contour_area (rc.width * rc.height)
        if rectangularity < (22/25 : ℚ) then none
        else if rc.edge_density < (1/40 : ℚ) then none
        else
          some { x := rc.x, y := rc.y, width := rc.width, height := rc.height
                 area := rc.width * rc.height, confidence := (13/20 : ℚ)
                 aspect_ratio := aspect, contour := rc.contour_points
                 corners := rc.corners, detection_method := "polaroid" }
      else none
    else none)

/-- `_detect_faded_photos(image, original_area)`: validate, score with the
advanced confidence discounted by 0.9, threshold. -/
def detect_faded_photos (d : AdvancedPhotoDetector) (img : Image)
    (raw : List RawContour) : List Detection :=
  raw.filterMap (fun rc =>
    if is_valid_photo_region d rc.x rc.y rc.width rc.height
        (img.width * img.height) = true then
      let confidence :=
        calculate_advanced_confidence img rc rc.x rc.y rc.width rc.height * (9/10 : ℚ)
      if confidence > d.min_confidence then
        some (mk_detection rc.x rc.y rc.width rc.height confidence
          rc.contour_points rc.corners "faded")
      else none
    else none)

/-- `_watershed_detection(image, original_area)`: the contours of the
watershed labels (flattened over labels), validated and scored with the
advanced confidence discounted by 0.85. -/
def watershed_detection (d : AdvancedPhotoDetector) (img : Image)
    (raw : List RawContour) : List Detection :=
  raw.filterMap (fun rc =>
    if is_valid_photo_region d rc.x rc.y rc.width rc.height
        (img.width * img.height) = true then
      let confidence :=
        calculate_advanced_confidence img rc rc.x rc.y rc.width rc.height * (17/20 : ℚ)
      if confidence > d.min_confidence then
        some (mk_detection rc.x rc.y rc.width rc.height confidence
          rc.contour_points rc.corners "watershed")
      else none
    else none)

/-- `_calculate_iou(det1, det2)`. -/
def calculate_iou (d1 d2 : Detection) : ℚ :=
  let xi1 := max d1.x d2.x
  let yi1 := max d1.y d2.y
  let xi2 := min (d1.x + d1.width) (d2.x + d2.width)
  let yi2 := min (d1.y + d1.height) (d2.y + d2.height)
  let inter_area : Int := max 0 (xi2 - xi1) * max 0 (yi2 - yi1)
  let union_area : Int :=
    d1.width * d1.height + d2.width * d2.height - inter_area
  if union_area > 0 then (inter_area : ℚ) / (union_area : ℚ) else 0

/-- The greedy loop of `_merge_overlapping_detections`: walk the
confidence-sorted list, appending a detection unless its IoU with one of the
already-accepted detections exceeds 0.5.  (The source's `used` set is dead
state: an index is added to it only when its element is accepted, and the
loop never revisits an index.) -/
def nms_fold (merged : List Detection) : List Detection → List Detection
  | [] => merged
  | p :: rest =>
    if merged.any (fun m => decide (calculate_iou p m > (1/2 : ℚ))) then
      nms_fold merged rest
    else
      nms_fold (merged ++ [p]) rest

/-- `_merge_overlapping_detections(detections)`. -/
def merge_overlapping_detections (l : List Detection) : List Detection :=
  if l = [] then []
  else nms_fold [] (sortDescBy (fun p => p.confidence) l)

/-- The opaque OpenCV outputs consumed by one `detect_photos` run:
the contours found by `_fast_detection`, those found by
`_multi_scale_detection` at each scale, and those of the Polaroid, faded
and watershed strategies. -/
structure RawData where
  fast : List RawContour
  multi : ℚ → List RawContour
  pol : List RawContour
  faded : List RawContour
  ws : List RawContour

/-- The union of strategy candidates (`all_detections` in the source):
only `_fast_detection` in fast mode, all four strategies otherwise. -/
def all_detections (d : AdvancedPhotoDetector) (img : Image)
    (raw : RawData) : List Detection :=
  if d.fast_mode then fast_detection d img raw.fast
  else
    multi_scale_detection d img raw.multi ++ detect_polaroids d img raw.pol
      ++ detect_faded_photos d img raw.faded ++ watershed_detection d img raw.ws

/-- `detect_photos(image_path)`.  `file_exists` models `os.path.exists`,
`loaded` the result of `cv2.imread` (`none` = undecodable), `cv_fail` an
exception raised by the OpenCV processing (caught by the enclosing
`try/except`, which returns `[]`).  After the guards: run the strategies,
apply NMS, sort by confidence descending, truncate to 15. -/
def detect_photos (d : AdvancedPhotoDetector) (file_exists : Bool)
    (loaded : Option Image) (cv_fail : Bool) (raw : RawData) : List Detection :=
  if file_exists then
    match loaded with
    | none => []
    | some img =>
      if img.height * img.width > 25000000 then []
      else if cv_fail then []
      else
        let merged := merge_overlapping_detections (all_detections d img raw)
        (sortDescBy (fun p => p.confidence) merged).take 15
  else []

/-- Squared Euclidean distance of two points (so that
`int(np.linalg.norm (p - q)) = py_isqrt (dist_sq p q)`). -/
def dist_sq (p q : ℚ × ℚ) : ℚ := (p.1 - q.1) ^ 2 + (p.2 - q.2) ^ 2

/-- The validation part of `_apply_perspective_transform(image, corners)`,
operating on the output of `_order_points` (the `atan2`-based centroid sort,
which is pure pixel geometry and enters as abstract input) and on the mean
intensity of the warped raster (abstract pixel data).  Returns the
`(max_width, max_height)` of the warped output, or `none` on any of the
source's rejection paths (in the source: `return None`, upon which the
caller falls back to the axis-aligned crop).  `int(max(a, b)) =
max (int a) (int b)` for the nonnegative norms, so the truncations commute
with `max`. -/
def apply_perspective_transform (ordered_corners : List (ℚ × ℚ))
    (warp_mean : ℚ) : Option (Int × Int) :=
  match ordered_corners with
  | [tl, tr, br, bl] =>
    let max_width : Int := max (py_isqrt (dist_sq tr tl)) (py_isqrt (dist_sq br bl))
    let max_height : Int := max (py_isqrt (dist_sq tl bl)) (py_isqrt (dist_sq tr br))
    if max_width = 0 ∨ max_height = 0 then none
    else
      let aspect : ℚ := (max_width : ℚ) / (max_height : ℚ)
      if aspect < (1/5 : ℚ) ∨ aspect > 5 then none
      else if max_width < 100 ∨ max_height < 100 then none
      else if max_width > 10000 ∨ max_height > 10000 then none
      else if warp_mean < 5 ∨ warp_mean > 250 then none
      else some (max_width, max_height)
  | _ => none

/-- The clamped axis-aligned crop window of `extract_photos`
(`padding = max(5, int(min(w, h) * 0.02))`, start/end clamped to the image):
returns `(x_start, y_start, x_end, y_end)`. -/
def crop_region (img : Image) (x y w h : Int) : Int × Int × Int × Int :=
  let padding : Int := max 5 (py_int ((min w h : Int) * ((1/50 : ℚ) : ℚ)))
  let x_start := max 0 (x - padding)
  let y_start := max 0 (y - padding)
  let x_end := min img.width (x + w + padding)
  let y_end := min img.height (y + h + padding)
  (x_start, y_start, x_end, y_end)

/-- The `(width, height)` of the numpy slice `image[y_start:y_end,
x_start:x_end]` (empty when start ≥ end, hence the clamp at 0). -/
def crop_dims (img : Image) (x y w h : Int) : Int × Int :=
  let r := crop_region img x y w h
  (max 0 (r.2.2.1 - r.1), max 0 (r.2.2.2 - r.2.1))

/-- `_refine_edges(image)` on the level of dimensions: a bilateral filter
(size-preserving) followed by trimming a 2-pixel border when both dimensions
exceed twice the border size. -/
def refine_edges_dims (wh : Int × Int) : Int × Int :=
  if wh.2 > 4 ∧ wh.1 > 4 then (wh.1 - 4, wh.2 - 4) else wh

/-- The opaque per-candidate OpenCV/IO outcomes consumed by one iteration of
`extract_photos`: the `_order_points` result for the candidate's refined
corners, whether the corner-refinement/transform `try` block raised
(caught, producing the crop fallback), the mean intensity of the warped
raster, and whether `cv2.imwrite` succeeded. -/
structure ExtractCvData where
  ordered_corners : List (ℚ × ℚ)
  corner_fails : Bool
  warp_mean : ℚ
  save_ok : Bool
deriving DecidableEq

/-- The record appended to `extracted_photos` (the Python dict; the
`filename`/`file_path` strings are represented by the running index that
makes them unique). -/
structure ExtractRec where
  original_region : Detection
  filename_index : Nat
  extracted_width : Int
  extracted_height : Int
  confidence : ℚ
  detection_method : String
  perspective_corrected : Bool
deriving DecidableEq

/-- One iteration of the `for i, photo in enumerate(detected_photos)` loop of
`extract_photos`: attempt the perspective path when enabled and the contour
is nonempty, fall back to the clamped axis-aligned crop, trim edges, save.
`none` models the `continue` taken on a failed `cv2.imwrite` (the
per-candidate `except` path). -/
def extract_one (d : AdvancedPhotoDetector) (img : Image)
    (cv : Nat → ExtractCvData) (i : Nat) (photo : Detection) : Option ExtractRec :=
  let c := cv i
  let attempt_warp : Bool := d.enable_perspective_correction && ¬ photo.contour.isEmpty
  let warped : Option (Int × Int) :=
    if attempt_warp then
      if c.corner_fails then none
      else apply_perspective_transform c.ordered_corners c.warp_mean
    else none
  let dims : Int × Int :=
    match warped with
    | some wh => wh
    | none => crop_dims img photo.x photo.y photo.width photo.height
  let final_dims := if d.enable_edge_refinement then refine_edges_dims dims else dims
  if c.save_ok then
    some { original_region := photo
           filename_index := i + 1
           extracted_width := final_dims.1
           extracted_height := final_dims.2
           confidence := photo.confidence
           detection_method := photo.detection_method
           perspective_corrected := attempt_warp }
  else none

/-- The extraction loop over the enumerated candidates, skipping failed
iterations and continuing with the rest. -/
def extract_loop (d : AdvancedPhotoDetector) (img : Image)
    (cv : Nat → ExtractCvData) : Nat → List Detection → List ExtractRec
  | _, [] => []
  | i, p :: rest =>
    match extract_one d img cv i p with
    | some r => r :: extract_loop d img cv (i + 1) rest
    | none => extract_loop d img cv (i + 1) rest

/-- `extract_photos(image_path, output_dir, detected_photos)`: empty result
when the image cannot be loaded or exceeds the 30-megapixel extraction
ceiling, otherwise the per-candidate loop. -/
def extract_photos (d : AdvancedPhotoDetector) (loaded : Option Image)
    (cv : Nat → ExtractCvData) (detected_photos : List Detection) : List ExtractRec :=
  match loaded with
  | none => []
  | some img =>
    if img.height * img.width > 30000000 then []
    else extract_loop d img cv 0 detected_photos

/-- The invariant package that every candidate appended by a detection
strategy satisfies: it passed `_is_valid_photo_region` on its own recorded
bounding box, its `area` field is `width * height`, and its confidence lies
in [0, 1]. -/
def GoodCandidate (d : AdvancedPhotoDetector) (img : Image) (c : Detection) : Prop :=
  is_valid_photo_region d c.x c.y c.width c.height (img.width * img.height) = true ∧
  c.area = c.width * c.height ∧
  0 ≤ c.confidence ∧ c.confidence ≤ 1

/-- Well-formedness of the opaque CV inputs: `cv2.contourArea` is
nonnegative (it returns an absolute area). -/
def RawDataWF (raw : RawData) : Prop :=
  (∀ rc ∈ raw.fast, 0 ≤ rc.contour_area) ∧
  (∀ s : ℚ, ∀ rc ∈ raw.multi s, 0 ≤ rc.contour_area) ∧
  (∀ rc ∈ raw.pol, 0 ≤ rc.contour_area) ∧
  (∀ rc ∈ raw.faded, 0 ≤ rc.contour_area) ∧
  (∀ rc ∈ raw.ws, 0 ≤ rc.contour_area)

/-! ### Concrete scenario inputs (used to instantiate the theorems) -/

/-- A 3000 x 3000 scan (9 MP, inside the 25 MP ceiling). -/
def imgEx : Image := Image.mk 3000 3000

def cornersEx : List (ℚ × ℚ) := [(100, 100), (1100, 100), (1100, 1100), (100, 1100)]

def contourEx : List (Int × Int) := [(100, 100), (1100, 100), (1100, 1100), (100, 1100)]

/-- A clean, well-centred 1000 x 1000 contour: rectangularity 0.95, right
angles, strong continuous edges on all four sides. -/
def rcEx : RawContour :=
  { x := 100, y := 100, width := 1000, height := 1000
    contour_area := 950000, corners := cornersEx
    corner_angles := [90, 90, 90, 90]
    top := ((1/2 : ℚ), true), bottom := ((1/2 : ℚ), true)
    left := ((1/2 : ℚ), true), right := ((1/2 : ℚ), true)
    texture_variance := 1000, edge_density := (1/2 : ℚ)
    contour_points := contourEx }

def rawEx : RawData :=
  { fast := [rcEx], multi := fun _ => [], pol := [], faded := [], ws := [] }

/-- The candidate `detect_photos` produces from `rawEx`
(confidence 0.24 + 0.2 + 0.15 + 0.4 = 0.99). -/
def dEx : Detection :=
  mk_detection 100 100 1000 1000 (99/100 : ℚ) contourEx cornersEx "fast"

/-- Like `rcEx` but flush against the right edge of the 3000-wide scan
(`x + width = 3000`): `_is_valid_photo_region` only checks `x < 5 or y < 5`. -/
def rcEdge : RawContour :=
  { rcEx with
    x := 2000
    y := 100
    corners := [(2000, 100), (3000, 100), (3000, 1100), (2000, 1100)]
    contour_points := [(2000, 100), (3000, 100), (3000, 1100), (2000, 1100)] }

def rawEdge : RawData :=
  { fast := [rcEdge], multi := fun _ => [], pol := [], faded := [], ws := [] }

/-- A 4000 x 4000 scan for the NMS chain scenario. -/
def imgNms : Image := Image.mk 4000 4000

/-- Top box of the NMS chain (perfect score, confidence 1.0). -/
def rcTop : RawContour :=
  { rcEx with contour_area := 1000000 }

/-- Middle box, overlapping `rcTop` with IoU 7/13: three strong sides,
confidence 0.25 + 0.2 + 0.15 + 0.34 = 0.94. -/
def rcMid : RawContour :=
  { rcTop with y := 400, right := ((1/20 : ℚ), false) }

/-- Bottom box, overlapping `rcMid` with IoU 7/13 but `rcTop` with only
1/4: two strong sides, confidence 0.25 + 0.2 + 0.15 + 0.26 = 0.86. -/
def rcBot : RawContour :=
  { rcTop with y := 700, left := ((1/20 : ℚ), false), right := ((1/20 : ℚ), false) }

def rawNms : RawData :=
  { fast := [rcTop, rcMid, rcBot], multi := fun _ => [], pol := [], faded := [], ws := [] }

def dTop : Detection := mk_detection 100 100 1000 1000 1 contourEx cornersEx "fast"

def dMid : Detection := mk_detection 100 400 1000 1000 (47/50 : ℚ) contourEx cornersEx "fast"

def dBot : Detection := mk_detection 100 700 1000 1000 (43/50 : ℚ) contourEx cornersEx "fast"

/-- A candidate whose contour is a single point: its refined corners are
four copies of that point, so the perspective transform degenerates
(`max_width = 0`) and extraction falls back to the axis-aligned crop. -/
def pDegenerate : Detection :=
  { x := 100, y := 100, width := 1000, height := 1000, area := 1000000
    confidence := (9/10 : ℚ), aspect_ratio := 1, contour := [(0, 0)]
    corners := [], detection_method := "fast" }

def cvDegenerate : Nat → ExtractCvData :=
  fun _ => { ordered_corners := [(0, 0), (0, 0), (0, 0), (0, 0)]
             corner_fails := false, warp_mean := 128, save_ok := true }

/-- A small image and two plain candidates for the extraction-isolation
scenario. -/
def imgSmall : Image := Image.mk 100 100

def pFirst : Detection :=
  { x := 10, y := 10, width := 20, height := 20, area := 400
    confidence := (7/10 : ℚ), aspect_ratio := 1, contour := []
    corners := [], detection_method := "fast" }

def pSecond : Detection :=
  { pFirst with x := 40, confidence := (13/20 : ℚ) }

/-- `cv2.imwrite` fails for the first candidate and succeeds afterwards. -/
def cvSkipFirst : Nat → ExtractCvData :=
  fun i => { ordered_corners := [], corner_fails := false, warp_mean := 0
             save_ok := decide (i ≠ 0) }

/-! ### Basic bounds on the confidence components -/

theorem rectangularity_score_nonneg (r : ℚ) : 0 ≤ rectangularity_score r := by
  unfold rectangularity_score
  split_ifs with h1 h2 <;> [rfl ; linarith ; linarith]

theorem aspect_match_nonneg (a : ℚ) : 0 ≤ aspect_match a := le_max_left 0 _

theorem corner_angle_score_nonneg (cs : List (ℚ × ℚ)) (as' : List ℚ) :
    0 ≤ corner_angle_score cs as' := by
  unfold corner_angle_score
  split_ifs
  · positivity
  · rfl

theorem size_score_nonneg (b : Int) : 0 ≤ size_score b := by
  unfold size_score
  split_ifs <;> norm_num

theorem analyze_texture_nonneg (img : Image) (v : ℚ) (x y w h : Int) :
    0 ≤ analyze_texture img v x y w h := by
  simp only [analyze_texture]
  split_ifs <;> norm_num

theorem validate_perimeter_edges_nonneg (img : Image) (rc : RawContour) :
    0 ≤ validate_perimeter_edges img rc := by
  simp only [validate_perimeter_edges]
  split_ifs <;> norm_num

theorem area_ratio_of_nonneg {ca : ℚ} (h : 0 ≤ ca) (b : Int) :
    0 ≤ area_ratio_of ca b := by
  unfold area_ratio_of
  split_ifs with hb
  · exact div_nonneg h (by exact_mod_cast le_of_lt hb)
  · rfl

theorem calculate_fast_confidence_nonneg (img : Image) (rc : RawContour)
    (b : Bool) : 0 ≤ calculate_fast_confidence img rc b := by
  have h1 := rectangularity_score_nonneg
    (area_ratio_of rc.contour_area (rc.width * rc.height))
  have h2 := aspect_match_nonneg ((rc.width : ℚ) / (rc.height : ℚ))
  have h3 := corner_angle_score_nonneg rc.corners rc.corner_angles
  have h4 := validate_perimeter_edges_nonneg img rc
  simp only [calculate_fast_confidence]
  split_ifs with hb hz
  · norm_num
  · exact le_min (by norm_num) (by nlinarith)
  · exact le_min (by norm_num) (by nlinarith)

theorem calculate_fast_confidence_le_one (img : Image) (rc : RawContour)
    (b : Bool) : calculate_fast_confidence img rc b ≤ 1 := by
  simp only [calculate_fast_confidence]
  split_ifs with hb hz
  · norm_num
  · exact min_le_left 1 _
  · exact min_le_left 1 _

theorem calculate_advanced_confidence_nonneg (img : Image) (rc : RawContour)
    (x y w h : Int) (hca : 0 ≤ rc.contour_area) :
    0 ≤ calculate_advanced_confidence img rc x y w h := by
  unfold calculate_advanced_confidence
  have h1 := area_ratio_of_nonneg hca (w * h)
  have h2 := aspect_match_nonneg ((w : ℚ) / (h : ℚ))
  have h3 := corner_angle_score_nonneg rc.corners rc.corner_angles
  have h4 := size_score_nonneg (w * h)
  have h5 := analyze_texture_nonneg img rc.texture_variance x y w h
  exact le_min (by norm_num) (by nlinarith)

theorem calculate_advanced_confidence_le_one (img : Image) (rc : RawContour)
    (x y w h : Int) : calculate_advanced_confidence img rc x y w h ≤ 1 := by
  unfold calculate_advanced_confidence
  exact min_le_left 1 _

/-! ### The stable descending sort -/

theorem insertDescBy_perm {α : Type} (k : α → ℚ) (p : α) (l : List α) :
    (insertDescBy k p l).Perm (p :: l) := by
  induction l with
  | nil => exact List.Perm.refl _
  | cons q rest ih =>
    unfold insertDescBy
    split_ifs with h
    · exact List.Perm.refl _
    · exact (List.Perm.cons q ih).trans (List.Perm.swap p q rest)

theorem sortDescBy_perm {α : Type} (k : α → ℚ) (l : List α) :
    (sortDescBy k l).Perm l := by
  induction l with
  | nil => exact List.Perm.refl _
  | cons p rest ih =>
    exact (insertDescBy_perm k p (sortDescBy k rest)).trans (ih.cons p)

theorem mem_sortDescBy {α : Type} {k : α → ℚ} {l : List α} {x : α} :
    x ∈ sortDescBy k l ↔ x ∈ l := (sortDescBy_perm k l).mem_iff

theorem insertDescBy_pairwise {α : Type} (k : α → ℚ) (p : α) {l : List α}
    (h : l.Pairwise (fun a b => k b ≤ k a)) :
    (insertDescBy k p l).Pairwise (fun a b => k b ≤ k a) := by
  induction l with
  | nil => simp [insertDescBy]
  | cons q rest ih =>
    rcases List.pairwise_cons.mp h with ⟨hq, hrest⟩
    unfold insertDescBy
    split_ifs with hle
    · refine List.pairwise_cons.mpr ⟨?_, h⟩
      intro b hb
      rcases List.mem_cons.mp hb with rfl | hb
      · exact hle
      · exact le_trans (hq b hb) hle
    · refine List.pairwise_cons.mpr ⟨?_, ih hrest⟩
      intro b hb
      rcases List.mem_cons.mp ((insertDescBy_perm k p rest).mem_iff.mp hb) with rfl | hb
      · exact le_of_lt (lt_of_not_le hle)
      · exact hq b hb

theorem sortDescBy_pairwise {α : Type} (k : α → ℚ) (l : List α) :
    (sortDescBy k l).Pairwise (fun a b => k b ≤ k a) := by
  induction l with
  | nil => exact List.Pairwise.nil
  | cons p rest ih => exact insertDescBy_pairwise k p ih

/-! ### IoU: symmetry, range, totality -/

theorem calculate_iou_comm (d1 d2 : Detection) :
    calculate_iou d1 d2 = calculate_iou d2 d1 := by
  simp only [calculate_iou]
  rw [max_comm d1.x d2.x, max_comm d1.y d2.y,
    min_comm (d1.x + d1.width) (d2.x + d2.width),
    min_comm (d1.y + d1.height) (d2.y + d2.height),
    add_comm (d1.width * d1.height) (d2.width * d2.height)]

theorem calculate_iou_nonneg (d1 d2 : Detection) : 0 ≤ calculate_iou d1 d2 := by
  simp only [calculate_iou]
  split_ifs with h
  · apply div_nonneg
    · exact_mod_cast mul_nonneg (le_max_left 0 _) (le_max_left 0 _)
    · exact_mod_cast le_of_lt h
  · exact le_refl 0

theorem calculate_iou_le_one (d1 d2 : Detection)
    (hw1 : 0 ≤ d1.width) (hh1 : 0 ≤ d1.height)
    (hw2 : 0 ≤ d2.width) (hh2 : 0 ≤ d2.height) :
    calculate_iou d1 d2 ≤ 1 := by
  simp only [calculate_iou]
  split_ifs with h
  · rw [div_le_one (by exact_mod_cast h)]
    have h1 : max 0 (min (d1.x + d1.width) (d2.x + d2.width) - max d1.x d2.x)
        ≤ d1.width := by
      apply max_le hw1
      have ha := min_le_left (d1.x + d1.width) (d2.x + d2.width)
      have hb := le_max_left d1.x d2.x
      linarith
    have h2 : max 0 (min (d1.x + d1.width) (d2.x + d2.width) - max d1.x d2.x)
        ≤ d2.width := by
      apply max_le hw2
      have ha := min_le_right (d1.x + d1.width) (d2.x + d2.width)
      have hb := le_max_right d1.x d2.x
      linarith
    have h3 : max 0 (min (d1.y + d1.height) (d2.y + d2.height) - max d1.y d2.y)
        ≤ d1.height := by
      apply max_le hh1
      have ha := min_le_left (d1.y + d1.height) (d2.y + d2.height)
      have hb := le_max_left d1.y d2.y
      linarith
    have h4 : max 0 (min (d1.y + d1.height) (d2.y + d2.height) - max d1.y d2.y)
        ≤ d2.height := by
      apply max_le hh2
      have ha := min_le_right (d1.y + d1.height) (d2.y + d2.height)
      have hb := le_max_right d1.y d2.y
      linarith
    have hnn1 : (0 : Int) ≤ max 0 (min (d1.x + d1.width) (d2.x + d2.width) - max d1.x d2.x) :=
      le_max_left 0 _
    have hnn2 : (0 : Int) ≤ max 0 (min (d1.y + d1.height) (d2.y + d2.height) - max d1.y d2.y) :=
      le_max_left 0 _
    have k1 : max 0 (min (d1.x + d1.width) (d2.x + d2.width) - max d1.x d2.x) *
        max 0 (min (d1.y + d1.height) (d2.y + d2.height) - max d1.y d2.y)
        ≤ d1.width * d1.height := mul_le_mul h1 h3 hnn2 hw1
    have k2 : max 0 (min (d1.x + d1.width) (d2.x + d2.width) - max d1.x d2.x) *
        max 0 (min (d1.y + d1.height) (d2.y + d2.height) - max d1.y d2.y)
        ≤ d2.width * d2.height := mul_le_mul h2 h4 hnn2 hw2
    exact_mod_cast by linarith
  · norm_num

/-! ### NMS: the greedy loop keeps only pairwise-compatible detections -/

theorem nms_fold_pairwise (rest : List Detection) :
    ∀ merged : List Detection,
      merged.Pairwise (fun a b => calculate_iou a b ≤ (1/2 : ℚ)) →
      (nms_fold merged rest).Pairwise (fun a b => calculate_iou a b ≤ (1/2 : ℚ)) := by
  induction rest with
  | nil => intro merged h; exact h
  | cons p rest ih =>
    intro merged h
    unfold nms_fold
    split_ifs with hov
    · exact ih merged h
    · apply ih
      rw [List.pairwise_append]
      refine ⟨h, List.pairwise_singleton _ _, ?_⟩
      intro a ha b hb
      have hbp : b = p := List.mem_singleton.mp hb
      have hle : calculate_iou p a ≤ (1/2 : ℚ) := by
        by_contra hgt
        push_neg at hgt
        exact hov (List.any_eq_true.mpr ⟨a, ha, decide_eq_true hgt⟩)
      show calculate_iou a b ≤ (1/2 : ℚ)
      rw [hbp, calculate_iou_comm a p]
      exact hle

theorem nms_fold_subset (rest : List Detection) :
    ∀ (merged : List Detection) (x : Detection),
      x ∈ nms_fold merged rest → x ∈ merged ∨ x ∈ rest := by
  induction rest with
  | nil =>
    intro merged x hx
    exact Or.inl hx
  | cons p rest ih =>
    intro merged x hx
    unfold nms_fold at hx
    split_ifs at hx with hov
    · rcases ih merged x hx with h | h
      · exact Or.inl h
      · exact Or.inr (List.mem_cons_of_mem p h)
    · rcases ih (merged ++ [p]) x hx with h | h
      · rcases List.mem_append.mp h with h | h
        · exact Or.inl h
        · exact Or.inr (List.mem_cons.mpr (Or.inl (List.mem_singleton.mp h)))
      · exact Or.inr (List.mem_cons_of_mem p h)

theorem merge_overlapping_detections_pairwise (l : List Detection) :
    (merge_overlapping_detections l).Pairwise
      (fun a b => calculate_iou a b ≤ (1/2 : ℚ)) := by
  unfold merge_overlapping_detections
  split_ifs with h
  · exact List.Pairwise.nil
  · exact nms_fold_pairwise _ [] List.Pairwise.nil

theorem mem_merge_overlapping_detections {l : List Detection} {x : Detection}
    (hx : x ∈ merge_overlapping_detections l) : x ∈ l := by
  unfold merge_overlapping_detections at hx
  split_ifs at hx with h
  · exact absurd hx (List.not_mem_nil x)
  · rcases nms_fold_subset _ [] x hx with h' | h'
    · exact absurd h' (List.not_mem_nil x)
    · exact mem_sortDescBy.mp h'

/-! ### Every strategy only emits valid, bounded candidates -/

theorem mem_fast_detection {d : AdvancedPhotoDetector} {img : Image}
    {raw : List RawContour} {c : Detection}
    (hc : c ∈ fast_detection d img raw) : GoodCandidate d img c := by
  unfold fast_detection at hc
  rcases List.mem_filterMap.mp hc with ⟨rc, hrc, heq⟩
  dsimp only [] at heq
  split_ifs at heq with h1 h2 h3 h4
  all_goals
    first
      | exact Option.noConfusion heq
      | · have hx := Option.some.inj heq
          subst hx
          exact ⟨h1, rfl, calculate_fast_confidence_nonneg img rc true,
            calculate_fast_confidence_le_one img rc true⟩

theorem mem_multi_scale_detection {d : AdvancedPhotoDetector} {img : Image}
    {rawAt : ℚ → List RawContour} {c : Detection}
    (hwf : ∀ s : ℚ, ∀ rc ∈ rawAt s, 0 ≤ rc.contour_area)
    (hc : c ∈ multi_scale_detection d img rawAt) : GoodCandidate d img c := by
  unfold multi_scale_detection at hc
  rcases List.mem_flatMap.mp hc with ⟨scale, hs, hc2⟩
  rcases List.mem_filterMap.mp hc2 with ⟨rc, hrc, heq⟩
  have hrc2 : rc ∈ rawAt scale := by
    have ht := (List.take_sublist 25 _).subset hrc
    exact mem_sortDescBy.mp (List.mem_filter.mp ht).1
  have hca := hwf scale rc hrc2
  dsimp only [] at heq
  set x2 := (if scale ≠ 1 then py_int ((rc.x : ℚ) / scale) else rc.x) with hx2
  set y2 := (if scale ≠ 1 then py_int ((rc.y : ℚ) / scale) else rc.y) with hy2
  set w2 := (if scale ≠ 1 then py_int ((rc.width : ℚ) / scale) else rc.width) with hw2
  set h2q := (if scale ≠ 1 then py_int ((rc.height : ℚ) / scale) else rc.height) with hh2
  split_ifs at heq with h1 h2
  all_goals
    first
      | exact Option.noConfusion heq
      | · have hx := Option.some.inj heq
          subst hx
          exact ⟨h1, rfl,
            calculate_advanced_confidence_nonneg _ _ _ _ _ _ hca,
            calculate_advanced_confidence_le_one _ _ _ _ _ _⟩

theorem mem_detect_polaroids {d : AdvancedPhotoDetector} {img : Image}
    {raw : List RawContour} {c : Detection}
    (hc : c ∈ detect_polaroids d img raw) : GoodCandidate d img c := by
  unfold detect_polaroids at hc
  rcases List.mem_filterMap.mp hc with ⟨rc, hrc, heq⟩
  dsimp only [] at heq
  split_ifs at heq with h1 h2 h3 h4
  all_goals
    first
      | exact Option.noConfusion heq
      | · have hx := Option.some.inj heq
          subst hx
          exact ⟨h1, rfl, by norm_num, by norm_num⟩

theorem mem_detect_faded_photos {d : AdvancedPhotoDetector} {img : Image}
    {raw : List RawContour} {c : Detection}
    (hwf : ∀ rc ∈ raw, 0 ≤ rc.contour_area)
    (hc : c ∈ detect_faded_photos d img raw) : GoodCandidate d img c := by
  unfold detect_faded_photos at hc
  rcases List.mem_filterMap.mp hc with ⟨rc, hrc, heq⟩
  have hca := hwf rc hrc
  have hb0 := calculate_advanced_confidence_nonneg img rc rc.x rc.y rc.width rc.height hca
  have hb1 := calculate_advanced_confidence_le_one img rc rc.x rc.y rc.width rc.height
  dsimp only [] at heq
  split_ifs at heq with h1 h2
  all_goals
    first
      | exact Option.noConfusion heq
      | · have hx := Option.some.inj heq
          subst hx
          refine ⟨h1, rfl, ?_, ?_⟩
          · show 0 ≤ calculate_advanced_confidence img rc rc.x rc.y rc.width
                rc.height * (9/10 : ℚ)
            nlinarith
          · show calculate_advanced_confidence img rc rc.x rc.y rc.width
                rc.height * (9/10 : ℚ) ≤ 1
            nlinarith

theorem mem_watershed_detection {d : AdvancedPhotoDetector} {img : Image}
    {raw : List RawContour} {c : Detection}
    (hwf : ∀ rc ∈ raw, 0 ≤ rc.contour_area)
    (hc : c ∈ watershed_detection d img raw) : GoodCandidate d img c := by
  unfold watershed_detection at hc
  rcases List.mem_filterMap.mp hc with ⟨rc, hrc, heq⟩
  have hca := hwf rc hrc
  have hb0 := calculate_advanced_confidence_nonneg img rc rc.x rc.y rc.width rc.height hca
  have hb1 := calculate_advanced_confidence_le_one img rc rc.x rc.y rc.width rc.height
  dsimp only [] at heq
  split_ifs at heq with h1 h2
  all_goals
    first
      | exact Option.noConfusion heq
      | · have hx := Option.some.inj heq
          subst hx
          refine ⟨h1, rfl, ?_, ?_⟩
          · show 0 ≤ calculate_advanced_confidence img rc rc.x rc.y rc.width
                rc.height * (17/20 : ℚ)
            nlinarith
          · show calculate_advanced_confidence img rc rc.x rc.y rc.width
                rc.height * (17/20 : ℚ) ≤ 1
            nlinarith

theorem mem_all_detections {d : AdvancedPhotoDetector} {img : Image}
    {raw : RawData} {c : Detection} (hwf : RawDataWF raw)
    (hc : c ∈ all_detections d img raw) : GoodCandidate d img c := by
  unfold all_detections at hc
  split_ifs at hc with hfm
  · exact mem_fast_detection hc
  · rcases List.mem_append.mp hc with h | h
    · rcases List.mem_append.mp h with h | h
      · rcases List.mem_append.mp h with h | h
        · exact mem_multi_scale_detection hwf.2.1 h
        · exact mem_detect_polaroids h
      · exact mem_detect_faded_photos hwf.2.2.2.1 h
    · exact mem_watershed_detection hwf.2.2.2.2 h

/-! ### From the public entry point down to the strategies -/

theorem mem_detect_photos {d : AdvancedPhotoDetector} {fe : Bool}
    {loaded : Option Image} {cvf : Bool} {raw : RawData} {c : Detection}
    (hc : c ∈ detect_photos d fe loaded cvf raw) :
    ∃ img, loaded = some img ∧ c ∈ all_detections d img raw := by
  cases fe with
  | false => simp [detect_photos] at hc
  | true =>
    cases loaded with
    | none => simp [detect_photos] at hc
    | some img =>
      cases cvf with
      | true => simp [detect_photos] at hc
      | false =>
        unfold detect_photos at hc
        rw [if_pos rfl] at hc
        dsimp only [] at hc
        split_ifs at hc with h2 h3
        · exact absurd hc (List.not_mem_nil c)
        · exact absurd hc (List.not_mem_nil c)
        · refine ⟨img, rfl, ?_⟩
          have hs : c ∈ sortDescBy (fun p => p.confidence)
              (merge_overlapping_detections (all_detections d img raw)) :=
            (List.take_sublist 15 _).subset hc
          exact mem_merge_overlapping_detections (mem_sortDescBy.mp hs)

/-! ### Validity facts independent of the confidence bounds -/

theorem mem_multi_scale_detection_valid {d : AdvancedPhotoDetector} {img : Image}
    {rawAt : ℚ → List RawContour} {c : Detection}
    (hc : c ∈ multi_scale_detection d img rawAt) :
    is_valid_photo_region d c.x c.y c.width c.height (img.width * img.height) = true ∧
    c.area = c.width * c.height := by
  unfold multi_scale_detection at hc
  rcases List.mem_flatMap.mp hc with ⟨scale, hs, hc2⟩
  rcases List.mem_filterMap.mp hc2 with ⟨rc, hrc, heq⟩
  dsimp only [] at heq
  set x2 := (if scale ≠ 1 then py_int ((rc.x : ℚ) / scale) else rc.x) with hx2
  set y2 := (if scale ≠ 1 then py_int ((rc.y : ℚ) / scale) else rc.y) with hy2
  set w2 := (if scale ≠ 1 then py_int ((rc.width : ℚ) / scale) else rc.width) with hw2
  set h2q := (if scale ≠ 1 then py_int ((rc.height : ℚ) / scale) else rc.height) with hh2
  split_ifs at heq with h1 h2
  all_goals
    first
      | exact Option.noConfusion heq
      | · have hx := Option.some.inj heq
          subst hx
          exact ⟨h1, rfl⟩

theorem mem_detect_faded_photos_valid {d : AdvancedPhotoDetector} {img : Image}
    {raw : List RawContour} {c : Detection}
    (hc : c ∈ detect_faded_photos d img raw) :
    is_valid_photo_region d c.x c.y c.width c.height (img.width * img.height) = true ∧
    c.area = c.width * c.height := by
  unfold detect_faded_photos at hc
  rcases List.mem_filterMap.mp hc with ⟨rc, hrc, heq⟩
  dsimp only [] at heq
  split_ifs at heq with h1 h2
  all_goals
    first
      | exact Option.noConfusion heq
      | · have hx := Option.some.inj heq
          subst hx
          exact ⟨h1, rfl⟩

theorem mem_watershed_detection_valid {d : AdvancedPhotoDetector} {img : Image}
    {raw : List RawContour} {c : Detection}
    (hc : c ∈ watershed_detection d img raw) :
    is_valid_photo_region d c.x c.y c.width c.height (img.width * img.height) = true ∧
    c.area = c.width * c.height := by
  unfold watershed_detection at hc
  rcases List.mem_filterMap.mp hc with ⟨rc, hrc, heq⟩
  dsimp only [] at heq
  split_ifs at heq with h1 h2
  all_goals
    first
      | exact Option.noConfusion heq
      | · have hx := Option.some.inj heq
          subst hx
          exact ⟨h1, rfl⟩

theorem mem_all_detections_valid {d : AdvancedPhotoDetector} {img : Image}
    {raw : RawData} {c : Detection} (hc : c ∈ all_detections d img raw) :
    is_valid_photo_region d c.x c.y c.width c.height (img.width * img.height) = true ∧
    c.area = c.width * c.height := by
  unfold all_detections at hc
  split_ifs at hc with hfm
  · have h := mem_fast_detection hc
    exact ⟨h.1, h.2.1⟩
  · rcases List.mem_append.mp hc with h | h
    · rcases List.mem_append.mp h with h | h
      · rcases List.mem_append.mp h with h | h
        · exact mem_multi_scale_detection_valid h
        · have h2 := mem_detect_polaroids h
          exact ⟨h2.1, h2.2.1⟩
      · exact mem_detect_faded_photos_valid h
    · exact mem_watershed_detection_valid h

/-- `_is_valid_photo_region` with the constructor's thresholds, read back as
the conjunction of geometric constraints it enforces. -/
theorem is_valid_photo_region_init_spec {fm : Bool} {x y w h oa : Int}
    (hv : is_valid_photo_region (AdvancedPhotoDetector.init fm) x y w h oa = true) :
    150000 ≤ w * h ∧ ((w * h : Int) : ℚ) ≤ (oa : ℚ) * (17/20 : ℚ) ∧
    (3/10 : ℚ) ≤ (w : ℚ) / (h : ℚ) ∧ (w : ℚ) / (h : ℚ) ≤ 4 ∧
    5 ≤ x ∧ 5 ≤ y ∧ 300 ≤ w ∧ 300 ≤ h ∧ 1200 ≤ 2 * (w + h) := by
  simp only [is_valid_photo_region, AdvancedPhotoDetector.init] at hv
  split_ifs at hv with h1 h2 h3 h4 h5 h6
  all_goals
    first
      | exact absurd hv Bool.false_ne_true
      | · push_neg at h1 h2 h3 h4 h5 h6
          exact ⟨h1, h2, h3.1, h3.2, h4.1, h4.2, h5.1, h5.2, h6⟩

/-- The result of `detect_photos` is either an error-path empty list or the
confidence-sorted, NMS-merged strategy union truncated to 15. -/
theorem detect_photos_cases (d : AdvancedPhotoDetector) (fe : Bool)
    (loaded : Option Image) (cvf : Bool) (raw : RawData) :
    detect_photos d fe loaded cvf raw = [] ∨
    ∃ img, loaded = some img ∧
      detect_photos d fe loaded cvf raw =
        (sortDescBy (fun p => p.confidence)
          (merge_overlapping_detections (all_detections d img raw))).take 15 := by
  cases fe with
  | false => left; simp [detect_photos]
  | true =>
    cases loaded with
    | none => left; simp [detect_photos]
    | some img =>
      cases cvf with
      | true => left; simp [detect_photos]
      | false =>
        by_cases hsz : img.height * img.width > 25000000
        · left; simp [detect_photos, hsz]
        · right; exact ⟨img, rfl, by simp [detect_photos, hsz]⟩

/-! ### The extraction loop -/

theorem extract_loop_length_le (d : AdvancedPhotoDetector) (img : Image)
    (cv : Nat → ExtractCvData) :
    ∀ (l : List Detection) (i : Nat),
      (extract_loop d img cv i l).length ≤ l.length := by
  intro l
  induction l with
  | nil => intro i; exact Nat.le_refl 0
  | cons p rest ih =>
    intro i
    unfold extract_loop
    cases extract_one d img cv i p with
    | some r => simpa using Nat.succ_le_succ (ih (i + 1))
    | none => exact Nat.le_succ_of_le (ih (i + 1))

theorem extract_loop_cons (d : AdvancedPhotoDetector) (img : Image)
    (cv : Nat → ExtractCvData) (i : Nat) (p : Detection) (rest : List Detection) :
    extract_loop d img cv i (p :: rest) =
      match extract_one d img cv i p with
      | some r => r :: extract_loop d img cv (i + 1) rest
      | none => extract_loop d img cv (i + 1) rest := rfl

theorem extract_loop_append (d : AdvancedPhotoDetector) (img : Image)
    (cv : Nat → ExtractCvData) :
    ∀ (a b : List Detection) (i : Nat),
      extract_loop d img cv i (a ++ b) =
        extract_loop d img cv i a ++ extract_loop d img cv (i + a.length) b := by
  intro a
  induction a with
  | nil => intro b i; simp [extract_loop]
  | cons p rest ih =>
    intro b i
    cases hcase : extract_one d img cv i p with
    | some r =>
      simp only [List.cons_append, extract_loop_cons, hcase, List.length_cons]
      rw [ih b (i + 1), show i + 1 + rest.length = i + (rest.length + 1) by omega]
    | none =>
      simp only [List.cons_append, extract_loop_cons, hcase, List.length_cons]
      rw [ih b (i + 1), show i + 1 + rest.length = i + (rest.length + 1) by omega]

/-! ### The claims -/

/-- C1 (amended): the list returned by `detect_photos` is produced by greedy
NMS — candidates are considered in descending confidence order and accepted
only when their IoU with every already-accepted candidate is at most 0.5 —
so any two candidates in the returned list have IoU at most 0.5, and of any
two candidates with IoU above 0.5 at most one survives.  (The original
claim's stronger clause — that the survivor of such a pair is always the
higher-confidence one — fails: see the counterexample, where the
higher-confidence member of a pair is suppressed by an earlier accepted
candidate and the lower-confidence member then survives.) -/
theorem C1_nms_pairwise_iou (d : AdvancedPhotoDetector) (fe : Bool)
    (loaded : Option Image) (cvf : Bool) (raw : RawData) :
    (detect_photos d fe loaded cvf raw).Pairwise
      (fun a b => calculate_iou a b ≤ (1/2 : ℚ)) ∧
    ∀ a ∈ detect_photos d fe loaded cvf raw,
      ∀ b ∈ detect_photos d fe loaded cvf raw,
        calculate_iou a b > (1/2 : ℚ) → a = b := by
  have hsym : Symmetric (fun a b : Detection => calculate_iou a b ≤ (1/2 : ℚ)) := by
    intro x y hxy
    show calculate_iou y x ≤ (1/2 : ℚ)
    rwa [calculate_iou_comm]
  have hpw : (detect_photos d fe loaded cvf raw).Pairwise
      (fun a b => calculate_iou a b ≤ (1/2 : ℚ)) := by
    rcases detect_photos_cases d fe loaded cvf raw with h | ⟨img, _, h⟩
    · rw [h]; exact List.Pairwise.nil
    · rw [h]
      refine List.Pairwise.sublist (List.take_sublist 15 _) ?_
      exact (List.Perm.pairwise_iff (fun {x y} h => hsym h) (sortDescBy_perm _ _)).mpr
        (merge_overlapping_detections_pairwise _)
  refine ⟨hpw, ?_⟩
  intro a ha b hb hgt
  by_contra hne
  exact absurd (hpw.forall hsym ha hb hne) (by linarith)

set_option maxRecDepth 4000 in
/-- C1 witness: the IoU bound applied to a concrete run, and the
at-most-one-survivor clause instantiated at a concrete overlapping pair. -/
theorem C1_nms_pairwise_iou_witness :
    (detect_photos photo_detector true (some imgNms) false rawNms).Pairwise
      (fun a b => calculate_iou a b ≤ (1/2 : ℚ)) ∧ dTop = dTop :=
  ⟨(C1_nms_pairwise_iou photo_detector true (some imgNms) false rawNms).1,
   (C1_nms_pairwise_iou photo_detector true (some imgNms) false rawNms).2
     dTop (by decide) dTop (by decide) (by decide)⟩

set_option maxRecDepth 4000 in
/-- C1 counterexample to the claim as stated: in a concrete run, `dMid` and
`dBot` are both produced by the strategy stage and overlap with IoU 7/13 >
0.5, `dMid` has the higher confidence (0.94 vs 0.86), yet `dMid` is
suppressed (by the earlier accepted `dTop`) while the lower-confidence
`dBot` survives into the returned list. -/
theorem C1_nms_counterexample :
    dMid ∈ all_detections photo_detector imgNms rawNms ∧
    dBot ∈ all_detections photo_detector imgNms rawNms ∧
    calculate_iou dMid dBot > (1/2 : ℚ) ∧
    dBot.confidence < dMid.confidence ∧
    dBot ∈ detect_photos photo_detector true (some imgNms) false rawNms ∧
    dMid ∉ detect_photos photo_detector true (some imgNms) false rawNms := by
  decide

/-- C2: every candidate returned by `detect_photos` satisfies the geometric
validity constraints of `_is_valid_photo_region` with the constructor's
thresholds: `area = width * height ≥ 150000 = min_photo_area`,
`area ≤ 0.85 * image_area`, aspect ratio in [0.3, 4.0], both dimensions at
least 300, and perimeter `2 * (w + h)` strictly above the minimum 1200. -/
theorem C2_detect_photos_geometric_validity (fm fe cvf : Bool) (img : Image)
    (raw : RawData) (c : Detection)
    (hc : c ∈ detect_photos (AdvancedPhotoDetector.init fm) fe (some img) cvf raw) :
    c.area = c.width * c.height ∧
    150000 ≤ c.area ∧
    (c.area : ℚ) ≤ ((img.width * img.height : Int) : ℚ) * (17/20 : ℚ) ∧
    (3/10 : ℚ) ≤ (c.width : ℚ) / (c.height : ℚ) ∧
    (c.width : ℚ) / (c.height : ℚ) ≤ 4 ∧
    300 ≤ c.width ∧ 300 ≤ c.height ∧
    1200 < 2 * (c.width + c.height) := by
  rcases mem_detect_photos hc with ⟨img2, heq, hall⟩
  have himg : img2 = img := by
    injection heq with h
    exact h.symm
  subst himg
  rcases mem_all_detections_valid hall with ⟨hv, harea⟩
  rcases is_valid_photo_region_init_spec hv with
    ⟨hmin, hmax, har1, har2, _, _, hw, hh, _⟩
  refine ⟨harea, by rw [harea]; exact hmin, by rw [harea]; exact_mod_cast hmax,
    har1, har2, hw, hh, ?_⟩
  by_contra hcon
  push_neg at hcon
  nlinarith [sq_nonneg (c.width - c.height), sq_nonneg (c.width + c.height)]

set_option maxRecDepth 4000 in
/-- C2 witness: a concrete run returning one candidate, on which the
geometric constraints are instantiated. -/
theorem C2_detect_photos_geometric_validity_witness :
    dEx.area = dEx.width * dEx.height ∧
    150000 ≤ dEx.area ∧
    (dEx.area : ℚ) ≤ ((imgEx.width * imgEx.height : Int) : ℚ) * (17/20 : ℚ) ∧
    (3/10 : ℚ) ≤ (dEx.width : ℚ) / (dEx.height : ℚ) ∧
    (dEx.width : ℚ) / (dEx.height : ℚ) ≤ 4 ∧
    300 ≤ dEx.width ∧ 300 ≤ dEx.height ∧
    1200 < 2 * (dEx.width + dEx.height) :=
  C2_detect_photos_geometric_validity true true false imgEx rawEx dEx (by decide)

/-- C3 (amended): every candidate returned by `detect_photos` keeps its
top-left corner at least 5 pixels from the image's left and top edges
(`_is_valid_photo_region` rejects `x < 5 or y < 5`); the code enforces no
clearance from the right or bottom edge (see the counterexample). -/
theorem C3_border_clearance_left_top (fm fe cvf : Bool) (img : Image)
    (raw : RawData) (c : Detection)
    (hc : c ∈ detect_photos (AdvancedPhotoDetector.init fm) fe (some img) cvf raw) :
    5 ≤ c.x ∧ 5 ≤ c.y := by
  rcases mem_detect_photos hc with ⟨img2, heq, hall⟩
  have himg : img2 = img := by
    injection heq with h
    exact h.symm
  subst himg
  rcases mem_all_detections_valid hall with ⟨hv, _⟩
  rcases is_valid_photo_region_init_spec hv with ⟨_, _, _, _, hx, hy, _, _, _⟩
  exact ⟨hx, hy⟩

set_option maxRecDepth 4000 in
/-- C3 witness: the left/top clearance instantiated on a concrete run. -/
theorem C3_border_clearance_left_top_witness : 5 ≤ dEx.x ∧ 5 ≤ dEx.y :=
  C3_border_clearance_left_top true true false imgEx rawEx dEx (by decide)

set_option maxRecDepth 4000 in
/-- C3 counterexample to the claim as stated: a concrete run returns a
candidate whose bounding box ends exactly at the image's right edge
(`x + width = 3000 = image width`), i.e. within 0 < 5 pixels of it — the
validity check constrains only `x` and `y` against the left/top edges. -/
theorem C3_border_clearance_counterexample :
    ¬ (∀ c ∈ detect_photos photo_detector true (some imgEx) false rawEdge,
        5 ≤ c.x ∧ 5 ≤ c.y ∧ c.x + c.width ≤ imgEx.width - 5 ∧
        c.y + c.height ≤ imgEx.height - 5) := by
  decide

/-- C5: `detect_photos` is a total function into candidate lists (the
embedding of the top-level `try/except`: any OpenCV failure is caught and
produces `[]`), and it returns the empty list when the file is missing,
when the image cannot be decoded, when the image exceeds the 25-megapixel
ceiling (`height * width > 25000000`), and when the processing raises. -/
theorem C5_detect_photos_error_handling (d : AdvancedPhotoDetector)
    (fe : Bool) (loaded : Option Image) (cvf : Bool) (raw : RawData) :
    (fe = false → detect_photos d fe loaded cvf raw = []) ∧
    (loaded = none → detect_photos d fe loaded cvf raw = []) ∧
    (∀ img, loaded = some img → img.height * img.width > 25000000 →
      detect_photos d fe loaded cvf raw = []) ∧
    (cvf = true → detect_photos d fe loaded cvf raw = []) := by
  refine ⟨?_, ?_, ?_, ?_⟩
  · intro h; subst h; simp [detect_photos]
  · intro h; subst h; cases fe <;> simp [detect_photos]
  · intro img h hsz; subst h; cases fe <;> simp [detect_photos, hsz]
  · intro h
    subst h
    cases fe with
    | false => simp [detect_photos]
    | true =>
      cases loaded with
      | none => simp [detect_photos]
      | some img => simp [detect_photos]

/-- C5 witness: the three error returns and the exception path, each at a
concrete input (missing file; undecodable image; 36-megapixel image; raised
processing error). -/
theorem C5_detect_photos_error_handling_witness :
    detect_photos photo_detector false (some imgEx) false rawEx = [] ∧
    detect_photos photo_detector true none false rawEx = [] ∧
    detect_photos photo_detector true (some (Image.mk 6000 6000)) false rawEx = [] ∧
    detect_photos photo_detector true (some imgEx) true rawEx = [] :=
  ⟨(C5_detect_photos_error_handling photo_detector false (some imgEx) false rawEx).1 rfl,
   (C5_detect_photos_error_handling photo_detector true none false rawEx).2.1 rfl,
   (C5_detect_photos_error_handling photo_detector true (some (Image.mk 6000 6000))
      false rawEx).2.2.1 (Image.mk 6000 6000) rfl (by decide),
   (C5_detect_photos_error_handling photo_detector true (some imgEx) true rawEx).2.2.2 rfl⟩

/-- C6: for nonnegative contour areas (`cv2.contourArea` is nonnegative),
every candidate produced by any detection strategy, and every candidate in
the final list returned by `detect_photos`, has confidence in [0, 1]. -/
theorem C6_confidence_bounds (d : AdvancedPhotoDetector) (fe cvf : Bool)
    (img : Image) (loaded : Option Image) (raw : RawData) (hwf : RawDataWF raw) :
    (∀ c ∈ fast_detection d img raw.fast, 0 ≤ c.confidence ∧ c.confidence ≤ 1) ∧
    (∀ c ∈ multi_scale_detection d img raw.multi, 0 ≤ c.confidence ∧ c.confidence ≤ 1) ∧
    (∀ c ∈ detect_polaroids d img raw.pol, 0 ≤ c.confidence ∧ c.confidence ≤ 1) ∧
    (∀ c ∈ detect_faded_photos d img raw.faded, 0 ≤ c.confidence ∧ c.confidence ≤ 1) ∧
    (∀ c ∈ watershed_detection d img raw.ws, 0 ≤ c.confidence ∧ c.confidence ≤ 1) ∧
    (∀ c ∈ detect_photos d fe loaded cvf raw, 0 ≤ c.confidence ∧ c.confidence ≤ 1) := by
  refine ⟨?_, ?_, ?_, ?_, ?_, ?_⟩
  · intro c hc; exact (mem_fast_detection hc).2.2
  · intro c hc; exact (mem_multi_scale_detection hwf.2.1 hc).2.2
  · intro c hc; exact (mem_detect_polaroids hc).2.2
  · intro c hc; exact (mem_detect_faded_photos hwf.2.2.2.1 hc).2.2
  · intro c hc; exact (mem_watershed_detection hwf.2.2.2.2 hc).2.2
  · intro c hc
    rcases mem_detect_photos hc with ⟨img2, _, hall⟩
    exact (mem_all_detections hwf hall).2.2

set_option maxRecDepth 4000 in
/-- C6 witness: the bound instantiated on the concrete candidate of a
concrete run. -/
theorem C6_confidence_bounds_witness :
    0 ≤ dEx.confidence ∧ dEx.confidence ≤ 1 :=
  (C6_confidence_bounds photo_detector true false imgEx (some imgEx) rawEx
    ⟨by decide,
     fun s rc h => absurd h (List.not_mem_nil rc),
     by decide, by decide, by decide⟩).2.2.2.2.2 dEx (by decide)

/-- C7: the list returned by `detect_photos` is sorted in non-increasing
order of confidence and contains at most 15 candidates. -/
theorem C7_output_sorted_and_capped (d : AdvancedPhotoDetector) (fe : Bool)
    (loaded : Option Image) (cvf : Bool) (raw : RawData) :
    (detect_photos d fe loaded cvf raw).Pairwise
      (fun a b => b.confidence ≤ a.confidence) ∧
    (detect_photos d fe loaded cvf raw).length ≤ 15 := by
  rcases detect_photos_cases d fe loaded cvf raw with h | ⟨img, _, h⟩
  · rw [h]
    exact ⟨List.Pairwise.nil, by simp⟩
  · rw [h]
    constructor
    · exact List.Pairwise.sublist (List.take_sublist 15 _)
        (sortDescBy_pairwise (fun p : Detection => p.confidence) _)
    · rw [List.length_take]
      exact min_le_left _ _

set_option maxRecDepth 4000 in
/-- C4 (code bug): `extract_photos` sets `perspective_corrected` to
`enable_perspective_correction and len(contour) > 0`, i.e. to whether the
warp was *attempted*, not whether it was applied.  On this concrete input
the candidate's contour is the single point (0,0), so its refined corners
are four copies of one point, `_apply_perspective_transform` returns `None`
(`max_width = 0`) and the axis-aligned crop fallback produces the
1036 x 1036 output — yet the returned record reports
`perspective_corrected = true`. -/
theorem C4_flag_set_without_warp :
    extract_photos photo_detector (some imgEx) cvDegenerate [pDegenerate] =
      [{ original_region := pDegenerate, filename_index := 1, extracted_width := 1036
         extracted_height := 1036, confidence := (9/10 : ℚ), detection_method := "fast"
         perspective_corrected := true }] ∧
    apply_perspective_transform (cvDegenerate 0).ordered_corners
      (cvDegenerate 0).warp_mean = none := by
  exact ⟨by decide, by decide⟩

/-- C8: extraction failure isolation — the result list never exceeds the
candidate list in length, and when extraction of one candidate fails
(modelled by `extract_one` returning `none` for it, the per-candidate
`except`/`continue` path) only that candidate is skipped: the result is
exactly the successful extractions of the candidates before and after it,
with the enumeration indices continuing across the failure. -/
theorem C8_extraction_isolation (d : AdvancedPhotoDetector) (img : Image)
    (cv : Nat → ExtractCvData) (l1 l2 : List Detection) (c : Detection)
    (hsz : ¬ (img.height * img.width > 30000000))
    (hfail : extract_one d img cv l1.length c = none) :
    (extract_photos d (some img) cv (l1 ++ c :: l2)).length ≤ (l1 ++ c :: l2).length ∧
    extract_photos d (some img) cv (l1 ++ c :: l2) =
      extract_loop d img cv 0 l1 ++ extract_loop d img cv (l1.length + 1) l2 := by
  have hred : extract_photos d (some img) cv (l1 ++ c :: l2) =
      extract_loop d img cv 0 (l1 ++ c :: l2) := by
    unfold extract_photos
    dsimp only []
    rw [if_neg hsz]
  constructor
  · rw [hred]
    exact extract_loop_length_le d img cv _ 0
  · rw [hred, extract_loop_append d img cv l1 (c :: l2) 0, Nat.zero_add,
      extract_loop_cons, hfail]

/-- C8 witness: with two candidates where saving the first fails, the call
still returns the (shorter) success list for the second. -/
theorem C8_extraction_isolation_witness :
    (extract_photos photo_detector (some imgSmall) cvSkipFirst
      [pFirst, pSecond]).length ≤ 2 ∧
    extract_photos photo_detector (some imgSmall) cvSkipFirst [pFirst, pSecond] =
      extract_loop photo_detector imgSmall cvSkipFirst 0 [] ++
        extract_loop photo_detector imgSmall cvSkipFirst 1 [pSecond] :=
  C8_extraction_isolation photo_detector imgSmall cvSkipFirst [] [pSecond] pFirst
    (by decide) (by decide)

/-- C9: the axis-aligned crop window of `extract_photos` (bounding box plus
`max(5, int(0.02 * min(w, h)))` padding) is clamped so its start
coordinates are nonnegative and its end coordinates do not exceed the
source image's width and height — the sampled region lies inside the
image. -/
theorem C9_crop_within_bounds (img : Image) (x y w h : Int) :
    0 ≤ (crop_region img x y w h).1 ∧
    0 ≤ (crop_region img x y w h).2.1 ∧
    (crop_region img x y w h).2.2.1 ≤ img.width ∧
    (crop_region img x y w h).2.2.2 ≤ img.height :=
  ⟨le_max_left 0 _, le_max_left 0 _, min_le_left _ _, min_le_left _ _⟩

/-- C10: `_calculate_iou` on detections with nonnegative widths and heights
is symmetric, lies in [0, 1], and is total: when the union area is not
positive it returns 0 instead of dividing. -/
theorem C10_iou_properties (d1 d2 : Detection)
    (hw1 : 0 ≤ d1.width) (hh1 : 0 ≤ d1.height)
    (hw2 : 0 ≤ d2.width) (hh2 : 0 ≤ d2.height) :
    calculate_iou d1 d2 = calculate_iou d2 d1 ∧
    0 ≤ calculate_iou d1 d2 ∧ calculate_iou d1 d2 ≤ 1 ∧
    (d1.width * d1.height + d2.width * d2.height -
        max 0 (min (d1.x + d1.width) (d2.x + d2.width) - max d1.x d2.x) *
          max 0 (min (d1.y + d1.height) (d2.y + d2.height) - max d1.y d2.y) ≤ 0 →
      calculate_iou d1 d2 = 0) := by
  refine ⟨calculate_iou_comm d1 d2, calculate_iou_nonneg d1 d2,
    calculate_iou_le_one d1 d2 hw1 hh1 hw2 hh2, ?_⟩
  intro hu
  simp only [calculate_iou]
  rw [if_neg (not_lt.mpr hu)]

/-- C10 witness: the properties instantiated at two concrete overlapping
detections. -/
theorem C10_iou_properties_witness :
    calculate_iou dTop dMid = calculate_iou dMid dTop ∧
    0 ≤ calculate_iou dTop dMid ∧ calculate_iou dTop dMid ≤ 1 ∧
    (dTop.width * dTop.height + dMid.width * dMid.height -
        max 0 (min (dTop.x + dTop.width) (dMid.x + dMid.width) - max dTop.x dMid.x) *
          max 0 (min (dTop.y + dTop.height) (dMid.y + dMid.height) - max dTop.y dMid.y) ≤ 0 →
      calculate_iou dTop dMid = 0) :=
  C10_iou_properties dTop dMid (by decide) (by decide) (by decide) (by decide)
